import Mathlib

/-!
Verification of the polybot copy-trading core.

This file gives a shallow embedding of the copy-trade synchronization
engine: the activity tracker (watermark-based deduplication and ordering,
tracker.py), the position ledger (SQLite layer db.py together with
position_manager.py, modelled as a pure state), and the orchestrator
per-trade decision logic (the loop body of main.py). Machine times are
modelled as naturals, monetary quantities as rationals, and the SQLite
tables as lists carried in a `Ledger` state record.
-/

namespace Polybot

/-- Trade direction, from models.py `TradeSide`. -/
inductive TradeSide where
  | BUY
  | SELL
deriving DecidableEq, Repr

/-- A trade of the target user, from models.py `Trade`. Timestamps are
naturals, prices and sizes rationals. -/
structure Trade where
  trade_id : String
  market_id : String
  token_id : String
  side : TradeSide
  size : ℚ
  price : ℚ
  timestamp : ℕ
  outcome : String
deriving DecidableEq, Repr

/-- models.py `Trade.is_buy`. -/
def Trade.is_buy (t : Trade) : Bool := t.side = TradeSide.BUY

/-- models.py `Trade.is_sell`. -/
def Trade.is_sell (t : Trade) : Bool := t.side = TradeSide.SELL

/-- A copied position, from models.py `Position`. The store assigns `id`
(SQLite autoincrement), so here it is a plain natural. -/
structure Position where
  id : ℕ
  market_id : String
  token_id : String
  side : TradeSide
  amount : ℚ
  entry_price : ℚ
  opened_at : ℕ
  closed_at : Option ℕ
  outcome : String
deriving DecidableEq, Repr

/-- models.py `Position.is_open`. -/
def Position.is_open (p : Position) : Bool := p.closed_at.isNone

/-- The durable state owned by db.py: the `positions` table, the set of
`trade_id` keys of the `processed_trades` table, and the autoincrement
counter for position ids. -/
structure Ledger where
  positions : List Position
  processed : List String
  next_id : ℕ
deriving DecidableEq, Repr

/-- A fresh database as produced by db.py `init_db`: both tables empty,
autoincrement starting at 1. -/
def emptyLedger : Ledger := { positions := [], processed := [], next_id := 1 }

/-- db.py `save_position`: inserts the row, the store assigns the id.
Returns the new state and the assigned position id. -/
def save_position (l : Ledger) (p : Position) : Ledger × ℕ :=
  ({ l with
      positions := l.positions ++ [{ p with id := l.next_id }],
      next_id := l.next_id + 1 },
   l.next_id)

/-- db.py `get_position_by_token`: the first row with this token and
`closed_at IS NULL`, in insertion (rowid) order. -/
def get_position_by_token (l : Ledger) (token_id : String) : Option Position :=
  l.positions.find? (fun p => p.token_id == token_id && p.closed_at.isNone)

/-- db.py `get_open_positions`: all rows with `closed_at IS NULL`. -/
def get_open_positions (l : Ledger) : List Position :=
  l.positions.filter (fun p => p.closed_at.isNone)

/-- db.py `close_position`: set `closed_at` on every row whose id matches. -/
def close_position (l : Ledger) (position_id : ℕ) (now : ℕ) : Ledger :=
  { l with
      positions := l.positions.map
        (fun p => if p.id = position_id then { p with closed_at := some now } else p) }

/-- db.py `is_trade_processed`: existence check on the marker table. -/
def is_trade_processed (l : Ledger) (trade_id : String) : Bool :=
  l.processed.contains trade_id

/-- db.py `mark_trade_processed`: INSERT OR IGNORE of the marker row. -/
def mark_trade_processed (l : Ledger) (trade_id : String) : Ledger :=
  if l.processed.contains trade_id then l
  else { l with processed := l.processed ++ [trade_id] }

/-- position_manager.py `PositionManager.record_entry`: size the entry as
`amount / entry_price` when the price is positive and 0 otherwise, insert
the open position, then mark the trade processed. Returns the new state
and the position id. -/
def record_entry (l : Ledger) (trade : Trade) (amount : ℚ) (entry_price : ℚ)
    (now : ℕ) : Ledger × ℕ :=
  let size : ℚ := if 0 < entry_price then amount / entry_price else 0
  let position : Position :=
    { id := 0
      market_id := trade.market_id
      token_id := trade.token_id
      side := trade.side
      amount := size
      entry_price := entry_price
      opened_at := now
      closed_at := none
      outcome := trade.outcome }
  let saved := save_position l position
  (mark_trade_processed saved.1 trade.trade_id, saved.2)

/-- position_manager.py `PositionManager.record_exit`: look up the open
position for the token; if none, return false and change nothing; else
close it, mark the trade processed, and return true. -/
def record_exit (l : Ledger) (trade : Trade) (now : ℕ) : Ledger × Bool :=
  match get_position_by_token l trade.token_id with
  | none => (l, false)
  | some position =>
      (mark_trade_processed (close_position l position.id now) trade.trade_id, true)

/-- The execution adapter interface of executor.py as the orchestrator
sees it: `buy token usd_amount` and `sell token size` each return an order
id on success and nothing on failure. -/
structure ExecutionAdapter where
  buy : String → ℚ → Option String
  sell : String → ℚ → Option String

/-- The per-trade body of the main loop in main.py: skip if already
processed; on BUY call the adapter and either `record_entry` (success) or
mark processed (failure); on SELL with an open position call the adapter
and either `record_exit` or mark processed; on SELL without a position
just mark processed. -/
def process_trade (ex : ExecutionAdapter) (trade_amount : ℚ) (now : ℕ)
    (l : Ledger) (trade : Trade) : Ledger :=
  if is_trade_processed l trade.trade_id then l
  else if trade.is_buy then
    match ex.buy trade.token_id trade_amount with
    | some _ => (record_entry l trade trade_amount trade.price now).1
    | none => mark_trade_processed l trade.trade_id
  else if trade.is_sell then
    match get_position_by_token l trade.token_id with
    | some position =>
        match ex.sell trade.token_id position.amount with
        | some _ => (record_exit l trade now).1
        | none => mark_trade_processed l trade.trade_id
    | none => mark_trade_processed l trade.trade_id
  else l

/-- How many execution-adapter calls the per-trade body of main.py makes
for this trade in this state: none when the processed gate skips it, one
for a BUY, one for a SELL with an open position, none for a SELL without
one. -/
def exec_calls (l : Ledger) (trade : Trade) : ℕ :=
  if is_trade_processed l trade.trade_id then 0
  else if trade.is_buy then 1
  else if trade.is_sell then
    match get_position_by_token l trade.token_id with
    | some _ => 1
    | none => 0
  else 0

/-- The main loop of main.py processing one fetched batch in order. -/
def process_trades (ex : ExecutionAdapter) (trade_amount : ℚ) (now : ℕ)
    (l : Ledger) (trades : List Trade) : Ledger :=
  trades.foldl (process_trade ex trade_amount now) l

/-- Number of open positions a ledger holds for a token. -/
def open_count (l : Ledger) (token_id : String) : ℕ :=
  (l.positions.filter (fun p => p.token_id == token_id && p.closed_at.isNone)).length

/-- Number of BUY trades for a token in a batch. -/
def count_buys (trades : List Trade) (token_id : String) : ℕ :=
  (trades.filter (fun t => t.is_buy && t.token_id == token_id)).length

/-- tracker.py: the maximum timestamp of a batch, `max(t.timestamp for t
in trades)` (0 on the empty batch, on which the source never takes it). -/
def max_timestamp (trades : List Trade) : ℕ :=
  (trades.map Trade.timestamp).foldl Nat.max 0

/-- tracker.py `Tracker._filter_new_trades`, acting on the watermark
`last_seen_timestamp`. Cold start (no watermark): emit nothing and, if the
fetch was non-empty, set the watermark to the maximum fetched timestamp.
Steady state: keep the trades strictly newer than the watermark, sorted
ascending by timestamp, watermark untouched. Returns the emitted trades
and the watermark after the call. -/
def filter_new_trades (last_seen : Option ℕ) (trades : List Trade) :
    List Trade × Option ℕ :=
  match last_seen with
  | none => ([], if trades.isEmpty then none else some (max_timestamp trades))
  | some w =>
      ((trades.filter (fun t => w < t.timestamp)).mergeSort
         (fun a b => a.timestamp ≤ b.timestamp),
       some w)

/-- tracker.py `Tracker.get_new_trades` with the fetched batch as an
explicit argument (a transport failure is the empty batch): filter against
the watermark, then, if anything was emitted, advance the watermark to the
maximum emitted timestamp. -/
def get_new_trades (last_seen : Option ℕ) (fetched : List Trade) :
    List Trade × Option ℕ :=
  let filtered := filter_new_trades last_seen fetched
  if filtered.1.isEmpty then filtered
  else (filtered.1, some (max_timestamp filtered.1))

/-- tracker.py `Tracker.set_last_seen`: overwrite the watermark. -/
def set_last_seen (_last_seen : Option ℕ) (timestamp : ℕ) : Option ℕ :=
  some timestamp

/-- The watermark after one poll cycle. -/
def poll_step (last_seen : Option ℕ) (fetched : List Trade) : Option ℕ :=
  (get_new_trades last_seen fetched).2

/-- The watermark after a sequence of poll cycles. -/
def run_polls (last_seen : Option ℕ) (batches : List (List Trade)) : Option ℕ :=
  batches.foldl poll_step last_seen

/-- Order on watermark states: an unset watermark is below everything, set
watermarks compare by timestamp; a set watermark is never above an unset
one. -/
def WatermarkLE : Option ℕ → Option ℕ → Prop
  | none, _ => True
  | some _, none => False
  | some a, some b => a ≤ b

/-- A numeric feed field as tracker.py sees it: absent from the record,
present but failing float conversion, or a parsed value. -/
inductive NumField where
  | missing
  | bad
  | val (q : ℚ)
deriving DecidableEq, Repr

/-- The timestamp feed field (`timestamp` or `createdAt`): absent, present
but failing ISO-format parsing, or a parsed value. -/
inductive TimeField where
  | missing
  | bad
  | val (n : ℕ)
deriving DecidableEq, Repr

/-- A raw activity record of the feed, with the fields tracker.py
`_parse_trade` reads. -/
structure RawItem where
  id : Option String
  transactionHash : Option String
  conditionId : Option String
  marketId : Option String
  assetId : Option String
  tokenId : Option String
  side : Option String
  size : NumField
  price : NumField
  time : TimeField
  outcome : Option String
  title : Option String

/-- Python `float(value_or_default_0)`: a missing field falls back to 0, a
bad value raises (here: none). -/
def float_field : NumField → Option ℚ
  | NumField.missing => some 0
  | NumField.bad => none
  | NumField.val q => some q

/-- The timestamp handling of `_parse_trade`: a missing field falls back
to the current time, a bad value raises (here: none). -/
def time_value (now : ℕ) : TimeField → Option ℕ
  | TimeField.missing => some now
  | TimeField.bad => none
  | TimeField.val n => some n

/-- ASCII upper-casing, modelling Python `str.upper()`. -/
def strUpper (s : String) : String := ⟨s.data.map Char.toUpper⟩

/-- The side handling of `_parse_trade`:
`TradeSide.BUY if item.get("side", "").upper() == "BUY" else TradeSide.SELL`. -/
def parse_side (side : Option String) : TradeSide :=
  if strUpper (side.getD "") = "BUY" then TradeSide.BUY else TradeSide.SELL

/-- tracker.py `Tracker._parse_trade`: build a `Trade` from a raw record,
returning none when a timestamp or numeric field raises; every fallback
chain of the source (`id`/`transactionHash`, `conditionId`/`marketId`,
`assetId`/`tokenId`, `outcome`/`title`) is kept. -/
def parse_trade (now : ℕ) (item : RawItem) : Option Trade :=
  match time_value now item.time, float_field item.size, float_field item.price with
  | some ts, some sz, some pr =>
      some { trade_id := item.id.getD (item.transactionHash.getD "")
             market_id := item.conditionId.getD (item.marketId.getD "")
             token_id := item.assetId.getD (item.tokenId.getD "")
             side := parse_side item.side
             size := sz
             price := pr
             timestamp := ts
             outcome := item.outcome.getD (item.title.getD "YES") }
  | _, _, _ => none

/-! Sample data used for concrete instances. -/

/-- An execution adapter whose calls always succeed. -/
def always_adapter : ExecutionAdapter :=
  { buy := fun _ _ => some "oid", sell := fun _ _ => some "oid" }

/-- A BUY trade on token T. -/
def sample_buy : Trade :=
  { trade_id := "a", market_id := "m", token_id := "T", side := TradeSide.BUY,
    size := 1, price := 1, timestamp := 1, outcome := "YES" }

/-- A second BUY trade on the same token T, with a distinct trade id. -/
def sample_buy2 : Trade :=
  { trade_id := "b", market_id := "m", token_id := "T", side := TradeSide.BUY,
    size := 1, price := 1, timestamp := 2, outcome := "YES" }

/-- A SELL trade on token T. -/
def sample_sell : Trade :=
  { trade_id := "s", market_id := "m", token_id := "T", side := TradeSide.SELL,
    size := 1, price := 1, timestamp := 3, outcome := "YES" }

/-- A trade with timestamp 1. -/
def trade1 : Trade :=
  { trade_id := "t1", market_id := "m", token_id := "T", side := TradeSide.BUY,
    size := 1, price := 1, timestamp := 1, outcome := "YES" }

/-- A trade with timestamp 2. -/
def trade2 : Trade :=
  { trade_id := "t2", market_id := "m", token_id := "T", side := TradeSide.BUY,
    size := 1, price := 1, timestamp := 2, outcome := "YES" }

/-- A trade with timestamp 3. -/
def trade3 : Trade :=
  { trade_id := "t3", market_id := "m", token_id := "T", side := TradeSide.BUY,
    size := 1, price := 1, timestamp := 3, outcome := "YES" }

/-- A trade with timestamp 5. -/
def trade5 : Trade :=
  { trade_id := "t5", market_id := "m", token_id := "T", side := TradeSide.BUY,
    size := 1, price := 1, timestamp := 5, outcome := "YES" }

/-- A ledger holding one open position on token T. -/
def ledger1 : Ledger := (record_entry emptyLedger sample_buy 10 1 0).1

/-! Helper lemmas on the ledger operations. -/

lemma mark_trade_processed_positions (l : Ledger) (i : String) :
    (mark_trade_processed l i).positions = l.positions := by
  unfold mark_trade_processed
  split <;> rfl

lemma mark_trade_processed_self (l : Ledger) (i : String) :
    is_trade_processed (mark_trade_processed l i) i = true := by
  unfold is_trade_processed mark_trade_processed
  split
  · assumption
  · simp

lemma mark_trade_processed_mono {l : Ledger} {j : String} (i : String)
    (h : is_trade_processed l j = true) :
    is_trade_processed (mark_trade_processed l i) j = true := by
  unfold is_trade_processed mark_trade_processed at *
  split
  · exact h
  · simp_all

lemma record_entry_processed (l : Ledger) (t : Trade) (a p : ℚ) (now : ℕ) :
    is_trade_processed (record_entry l t a p now).1 t.trade_id = true :=
  mark_trade_processed_self _ _

lemma record_entry_fst_positions (l : Ledger) (t : Trade) (a p : ℚ) (now : ℕ) :
    (record_entry l t a p now).1.positions =
      l.positions ++
        [{ id := l.next_id, market_id := t.market_id, token_id := t.token_id,
           side := t.side, amount := if 0 < p then a / p else 0,
           entry_price := p, opened_at := now, closed_at := none,
           outcome := t.outcome }] := by
  unfold record_entry save_position
  rw [mark_trade_processed_positions]

lemma record_entry_processed_set (l : Ledger) (t : Trade) (a p : ℚ) (now : ℕ) :
    (record_entry l t a p now).1.processed =
      (mark_trade_processed { l with
          positions := (record_entry l t a p now).1.positions,
          next_id := l.next_id + 1 } t.trade_id).processed := by
  unfold record_entry save_position mark_trade_processed
  split <;> split <;> simp_all

lemma record_exit_of_some {l : Ledger} {t : Trade} {p : Position} (now : ℕ)
    (h : get_position_by_token l t.token_id = some p) :
    record_exit l t now =
      (mark_trade_processed (close_position l p.id now) t.trade_id, true) := by
  unfold record_exit
  rw [h]

lemma record_exit_of_none {l : Ledger} {t : Trade} (now : ℕ)
    (h : get_position_by_token l t.token_id = none) :
    record_exit l t now = (l, false) := by
  unfold record_exit
  rw [h]

lemma close_position_processed (l : Ledger) (pid now : ℕ) :
    (close_position l pid now).processed = l.processed := rfl

lemma save_position_processed (l : Ledger) (p : Position) :
    (save_position l p).1.processed = l.processed := rfl

lemma is_trade_processed_record_entry_mono {l : Ledger} {j : String}
    (t : Trade) (a p : ℚ) (now : ℕ) (h : is_trade_processed l j = true) :
    is_trade_processed (record_entry l t a p now).1 j = true := by
  unfold record_entry
  exact mark_trade_processed_mono _ h

lemma is_trade_processed_record_exit_mono {l : Ledger} {j : String}
    (t : Trade) (now : ℕ) (h : is_trade_processed l j = true) :
    is_trade_processed (record_exit l t now).1 j = true := by
  unfold record_exit
  cases hpos : get_position_by_token l t.token_id with
  | none => exact h
  | some p => exact mark_trade_processed_mono _ h

/-- Every branch of the per-trade body marks the trade processed (or it
already was). -/
lemma process_trade_processed (ex : ExecutionAdapter) (amt : ℚ) (now : ℕ)
    (l : Ledger) (t : Trade) :
    is_trade_processed (process_trade ex amt now l t) t.trade_id = true := by
  unfold process_trade
  split
  · assumption
  · split
    · split
      · exact record_entry_processed l t amt t.price now
      · exact mark_trade_processed_self l t.trade_id
    · split
      · split
        · rename_i position hpos
          split
          · rw [record_exit_of_some now hpos]
            exact mark_trade_processed_self _ _
          · exact mark_trade_processed_self l t.trade_id
        · exact mark_trade_processed_self l t.trade_id
      · rename_i hb hs
        unfold Trade.is_buy at hb
        unfold Trade.is_sell at hs
        cases h : t.side with
        | BUY => simp_all
        | SELL => simp_all

/-- A trade already marked processed is skipped without any state change. -/
lemma process_trade_of_processed {l : Ledger} {t : Trade}
    (ex : ExecutionAdapter) (amt : ℚ) (now : ℕ)
    (h : is_trade_processed l t.trade_id = true) :
    process_trade ex amt now l t = l := by
  unfold process_trade
  rw [if_pos h]

/-- The per-trade body never removes a processed-trade marker. -/
lemma process_trade_mono {l : Ledger} {j : String}
    (ex : ExecutionAdapter) (amt : ℚ) (now : ℕ) (t : Trade)
    (h : is_trade_processed l j = true) :
    is_trade_processed (process_trade ex amt now l t) j = true := by
  unfold process_trade
  split
  · exact h
  · split
    · split
      · exact is_trade_processed_record_entry_mono t amt t.price now h
      · exact mark_trade_processed_mono _ h
    · split
      · split
        · rename_i position hpos
          split
          · exact is_trade_processed_record_exit_mono t now h
          · exact mark_trade_processed_mono _ h
        · exact mark_trade_processed_mono _ h
      · exact h

/-- The whole loop never removes a processed-trade marker. -/
lemma process_trades_mono {l : Ledger} {j : String}
    (ex : ExecutionAdapter) (amt : ℚ) (now : ℕ) (ts : List Trade)
    (h : is_trade_processed l j = true) :
    is_trade_processed (process_trades ex amt now l ts) j = true := by
  induction ts generalizing l with
  | nil => exact h
  | cons t ts ih => exact ih (process_trade_mono ex amt now t h)

/-- A processed trade causes no execution-adapter call. -/
lemma exec_calls_of_processed {l : Ledger} {t : Trade}
    (h : is_trade_processed l t.trade_id = true) : exec_calls l t = 0 := by
  unfold exec_calls
  rw [if_pos h]

lemma open_count_eq_countP (l : Ledger) (tok : String) :
    open_count l tok =
      l.positions.countP (fun p => p.token_id == tok && p.closed_at.isNone) :=
  (List.countP_eq_length_filter _ _).symm

lemma open_count_mark (l : Ledger) (i tok : String) :
    open_count (mark_trade_processed l i) tok = open_count l tok := by
  unfold open_count
  rw [mark_trade_processed_positions]

/-- Closing a position can only lower the number of open positions. -/
lemma open_count_close_le (l : Ledger) (pid now : ℕ) (tok : String) :
    open_count (close_position l pid now) tok ≤ open_count l tok := by
  rw [open_count_eq_countP, open_count_eq_countP]
  unfold close_position
  rw [List.countP_map]
  apply List.countP_mono_left
  intro p hp hpf
  by_cases h : p.id = pid
  · simp [Function.comp, h] at hpf
  · simpa [Function.comp, h] using hpf

/-- Recording an entry adds exactly one open position, on the token of the
copied trade. -/
lemma open_count_record_entry (l : Ledger) (t : Trade) (a p : ℚ) (now : ℕ)
    (tok : String) :
    open_count (record_entry l t a p now).1 tok =
      open_count l tok + (if t.token_id == tok then 1 else 0) := by
  unfold open_count
  rw [record_entry_fst_positions, List.filter_append, List.length_append]
  congr 1
  by_cases h : t.token_id == tok <;> simp [List.filter_cons, h]

lemma open_count_record_exit_le (l : Ledger) (t : Trade) (now : ℕ) (tok : String) :
    open_count (record_exit l t now).1 tok ≤ open_count l tok := by
  unfold record_exit
  split
  · exact le_refl _
  · rename_i position hpos
    show open_count
        (mark_trade_processed (close_position l position.id now) t.trade_id) tok ≤
      open_count l tok
    rw [open_count_mark]
    exact open_count_close_le l position.id now tok

/-- One step of the orchestrator raises the open-position count of a token
by at most one, and only on a BUY for that token. -/
lemma open_count_process_trade_le (ex : ExecutionAdapter) (amt : ℚ) (now : ℕ)
    (l : Ledger) (t : Trade) (tok : String) :
    open_count (process_trade ex amt now l t) tok ≤
      open_count l tok + (if t.is_buy && t.token_id == tok then 1 else 0) := by
  unfold process_trade
  split
  · exact Nat.le_add_right _ _
  · split
    · rename_i hbuy
      split
      · rw [open_count_record_entry]
        simp [hbuy]
      · rw [open_count_mark]
        exact Nat.le_add_right _ _
    · split
      · split
        · rename_i position hpos
          split
          · exact le_trans (open_count_record_exit_le l t now tok) (Nat.le_add_right _ _)
          · rw [open_count_mark]
            exact Nat.le_add_right _ _
        · rw [open_count_mark]
          exact Nat.le_add_right _ _
      · exact Nat.le_add_right _ _

lemma count_buys_cons (t : Trade) (ts : List Trade) (tok : String) :
    count_buys (t :: ts) tok =
      (if t.is_buy && t.token_id == tok then 1 else 0) + count_buys ts tok := by
  unfold count_buys
  rw [List.filter_cons]
  split <;> simp_all [Nat.add_comm]

/-- Over a whole batch, the open-position count of a token is bounded by
the number of BUY trades for that token. -/
lemma open_count_process_trades_le (ex : ExecutionAdapter) (amt : ℚ) (now : ℕ)
    (l : Ledger) (ts : List Trade) (tok : String) :
    open_count (process_trades ex amt now l ts) tok ≤
      open_count l tok + count_buys ts tok := by
  induction ts generalizing l with
  | nil => simp [process_trades, count_buys]
  | cons t ts ih =>
      have h1 := open_count_process_trade_le ex amt now l t tok
      have h2 := ih (process_trade ex amt now l t)
      rw [count_buys_cons]
      unfold process_trades at h2 ⊢
      simp only [List.foldl_cons]
      omega

/-- Claim C1, counterexample: starting from an empty ledger, two distinct
BUY trades for the same token T, both successfully copied, leave two open
positions for T, so the at-most-one-open-position invariant fails as
stated. -/
theorem c1_counterexample :
    ¬ open_count
        (process_trades always_adapter 10 0 emptyLedger [sample_buy, sample_buy2])
        "T" ≤ 1 := by
  decide

/-- Claim C1 (amended): after any sequence of BUY/SELL copy actions
processed by the orchestrator starting from an empty ledger, every token
has at most one open position, provided at most one trade of the sequence
carries side BUY for that token. -/
theorem c1_at_most_one_open_position (ex : ExecutionAdapter) (amt : ℚ)
    (now : ℕ) (ts : List Trade) (tok : String) (h : count_buys ts tok ≤ 1) :
    open_count (process_trades ex amt now emptyLedger ts) tok ≤ 1 := by
  have hb := open_count_process_trades_le ex amt now emptyLedger ts tok
  have h0 : open_count emptyLedger tok = 0 := rfl
  omega

/-- Concrete instance of the amended claim C1: one BUY then one SELL on
token T leave at most one open position for T. -/
theorem c1_witness :
    count_buys [sample_buy, sample_sell] "T" ≤ 1 ∧
    open_count
      (process_trades always_adapter 10 0 emptyLedger [sample_buy, sample_sell])
      "T" ≤ 1 :=
  ⟨by decide,
   c1_at_most_one_open_position always_adapter 10 0 [sample_buy, sample_sell] "T"
     (by decide)⟩

/-- Claim C2: processing a trade and then processing any trade with the
same trade id again, with any adapter, trade amount and clock, leaves the
ledger exactly as after the first run; the second run is skipped by the
processed-marker gate. -/
theorem c2_idempotent (ex ex2 : ExecutionAdapter) (amt amt2 : ℚ)
    (now now2 : ℕ) (l : Ledger) (t t2 : Trade) (h : t2.trade_id = t.trade_id) :
    process_trade ex2 amt2 now2 (process_trade ex amt now l t) t2 =
      process_trade ex amt now l t := by
  apply process_trade_of_processed
  rw [h]
  exact process_trade_processed ex amt now l t

/-- Concrete instance of claim C2: replaying the sample BUY trade is a
no-op. -/
theorem c2_witness :
    process_trade always_adapter 10 0
        (process_trade always_adapter 10 0 emptyLedger sample_buy) sample_buy =
      process_trade always_adapter 10 0 emptyLedger sample_buy :=
  c2_idempotent always_adapter always_adapter 10 10 0 0 emptyLedger
    sample_buy sample_buy rfl

/-- Claim C3: every branch of the per-trade decision table writes the
processed marker for the trade id, and after any amount of further
processing no trade with that trade id ever triggers another
execution-adapter call. -/
theorem c3_forward_progress (ex ex1 : ExecutionAdapter) (amt amt1 : ℚ)
    (now now1 : ℕ) (l : Ledger) (t t2 : Trade) (ts : List Trade)
    (h : t2.trade_id = t.trade_id) :
    is_trade_processed (process_trade ex amt now l t) t.trade_id = true ∧
    exec_calls (process_trades ex1 amt1 now1 (process_trade ex amt now l t) ts)
      t2 = 0 := by
  have hp := process_trade_processed ex amt now l t
  refine ⟨hp, ?_⟩
  apply exec_calls_of_processed
  apply process_trades_mono
  rw [h]
  exact hp

/-- Concrete instance of claim C3: once the sample BUY trade is processed,
a later cycle makes no execution call for it. -/
theorem c3_witness :
    is_trade_processed
        (process_trade always_adapter 10 0 emptyLedger sample_buy)
        sample_buy.trade_id = true ∧
    exec_calls
      (process_trades always_adapter 10 0
        (process_trade always_adapter 10 0 emptyLedger sample_buy)
        [sample_buy2])
      sample_buy = 0 :=
  c3_forward_progress always_adapter always_adapter 10 10 0 0 emptyLedger
    sample_buy sample_buy [sample_buy2] rfl

/-! Tracker lemmas. -/

lemma le_foldl_max (xs : List ℕ) (a : ℕ) : a ≤ xs.foldl Nat.max a := by
  induction xs generalizing a with
  | nil => exact le_refl a
  | cons x xs ih => exact le_trans (Nat.le_max_left a x) (ih (Nat.max a x))

lemma mem_le_foldl_max (xs : List ℕ) : ∀ a x, x ∈ xs → x ≤ xs.foldl Nat.max a := by
  induction xs with
  | nil =>
      intro a x h
      cases h
  | cons y ys ih =>
      intro a x h
      rcases List.mem_cons.mp h with rfl | hmem
      · exact le_trans (Nat.le_max_right a x) (le_foldl_max ys _)
      · exact ih _ x hmem

lemma timestamp_le_max {t : Trade} {ts : List Trade} (h : t ∈ ts) :
    t.timestamp ≤ max_timestamp ts :=
  mem_le_foldl_max _ 0 _ (List.mem_map_of_mem Trade.timestamp h)

lemma get_new_trades_fst (ls : Option ℕ) (f : List Trade) :
    (get_new_trades ls f).1 = (filter_new_trades ls f).1 := by
  show (if (filter_new_trades ls f).1.isEmpty = true then filter_new_trades ls f
      else ((filter_new_trades ls f).1,
        some (max_timestamp (filter_new_trades ls f).1))).1 =
    (filter_new_trades ls f).1
  split <;> rfl

/-- Cold start with a non-empty fetch: nothing is emitted and the
watermark becomes the maximum fetched timestamp. -/
lemma cold_start_nonempty {ts : List Trade} (h : ts ≠ []) :
    get_new_trades none ts = ([], some (max_timestamp ts)) := by
  have hne : ts.isEmpty = false := List.isEmpty_eq_false.mpr h
  simp [get_new_trades, filter_new_trades, hne]

instance : (a b : Option ℕ) → Decidable (WatermarkLE a b)
  | none, _ => isTrue trivial
  | some _, none => isFalse (fun h => h)
  | some a, some b => Nat.decLe a b

lemma wm_le_refl (a : Option ℕ) : WatermarkLE a a := by
  cases a with
  | none => trivial
  | some x => exact Nat.le_refl x

lemma wm_le_trans {a b c : Option ℕ}
    (h1 : WatermarkLE a b) (h2 : WatermarkLE b c) : WatermarkLE a c := by
  cases a with
  | none => trivial
  | some x =>
      cases b with
      | none => exact h1.elim
      | some y =>
          cases c with
          | none => exact h2.elim
          | some z => exact Nat.le_trans h1 h2

/-- One poll cycle never lowers the watermark. -/
lemma wm_le_poll_step (ls : Option ℕ) (f : List Trade) :
    WatermarkLE ls (poll_step ls f) := by
  cases ls with
  | none => trivial
  | some w =>
      unfold poll_step get_new_trades
      simp only [filter_new_trades]
      split
      · exact Nat.le_refl w
      · rename_i hne
        have hnil :
            (f.filter (fun t => w < t.timestamp)).mergeSort
              (fun a b => a.timestamp ≤ b.timestamp) ≠ [] := by
          simpa using hne
        obtain ⟨t, ht⟩ := List.exists_mem_of_ne_nil _ hnil
        have hmem : t ∈ f.filter (fun t => w < t.timestamp) :=
          (List.mergeSort_perm _ _).mem_iff.mp ht
        have hgt : w < t.timestamp := by
          have := (List.mem_filter.mp hmem).2
          simpa using this
        exact le_trans (Nat.le_of_lt hgt) (timestamp_le_max ht)

/-- Claim C5, counterexample: after a cold-start poll sets the watermark
to 5, a setLastSeen call with timestamp 0 lowers it to 0, so across
sequences of Tracker calls that include setLastSeen the watermark can
decrease. -/
theorem c5_counterexample :
    poll_step none [trade5] = some 5 ∧
    set_last_seen (poll_step none [trade5]) 0 = some 0 ∧
    ¬ WatermarkLE (poll_step none [trade5])
        (set_last_seen (poll_step none [trade5]) 0) := by
  refine ⟨by decide, rfl, by decide⟩

/-- Claim C5 (amended): across any sequence of getNewTrades polls,
starting from any watermark state, the watermark never decreases;
setLastSeen, which overwrites the watermark with an arbitrary value, is
excluded. -/
theorem c5_watermark_monotone (ls : Option ℕ) (batches : List (List Trade)) :
    WatermarkLE ls (run_polls ls batches) := by
  induction batches generalizing ls with
  | nil => exact wm_le_refl ls
  | cons b bs ih => exact wm_le_trans (wm_le_poll_step ls b) (ih (poll_step ls b))

/-- Claim C4: if the watermark is unset and the fetch returns a non-empty
batch, getNewTrades emits nothing and the watermark becomes the maximum
timestamp among the fetched trades. -/
theorem c4_cold_start (ts : List Trade) (h : ts ≠ []) :
    get_new_trades none ts = ([], some (max_timestamp ts)) :=
  cold_start_nonempty h

/-- Concrete instance of claim C4: one historical trade with timestamp 5
is suppressed and the watermark becomes 5. -/
theorem c4_witness : get_new_trades none [trade5] = ([], some 5) := by
  rw [c4_cold_start [trade5] (by decide)]
  rfl

/-- Claim C10: a cold-start poll that fetches nothing leaves the watermark
unset, and the next poll that does fetch trades still suppresses them,
emitting nothing and only then setting the watermark to the maximum
fetched timestamp. -/
theorem c10_empty_cold_start :
    get_new_trades none [] = ([], none) ∧
    ∀ ts : List Trade, ts ≠ [] →
      (get_new_trades none ts).1 = [] ∧
      (get_new_trades none ts).2 = some (max_timestamp ts) := by
  refine ⟨rfl, ?_⟩
  intro ts h
  rw [cold_start_nonempty h]
  exact ⟨rfl, rfl⟩

/-- Concrete instance of claim C10: after an empty first poll, a poll
fetching the timestamp-5 trade emits nothing and sets the watermark
to 5. -/
theorem c10_witness :
    (get_new_trades none [trade5]).1 = [] ∧
    (get_new_trades none [trade5]).2 = some 5 := by
  have h := c10_empty_cold_start.2 [trade5] (by decide)
  refine ⟨h.1, ?_⟩
  rw [h.2]
  rfl

lemma steady_fst (w : ℕ) (f : List Trade) :
    (get_new_trades (some w) f).1 =
      (f.filter (fun t => w < t.timestamp)).mergeSort
        (fun a b => a.timestamp ≤ b.timestamp) := by
  rw [get_new_trades_fst]
  rfl

/-- Claim C6: with a set watermark, getNewTrades emits exactly the fetched
trades strictly newer than the watermark, sorted ascending by timestamp;
afterwards the watermark is the maximum emitted timestamp, or is unchanged
when nothing was emitted. Trades fetched with timestamps [3,1,2] above a
watermark of 0 are emitted as [1,2,3]. -/
theorem c6_steady_state (w : ℕ) (fetched : List Trade) :
    (get_new_trades (some w) fetched).1.Perm
        (fetched.filter (fun t => w < t.timestamp)) ∧
    (get_new_trades (some w) fetched).1.Pairwise
        (fun a b => a.timestamp ≤ b.timestamp) ∧
    ((get_new_trades (some w) fetched).1 = [] →
        (get_new_trades (some w) fetched).2 = some w) ∧
    ((get_new_trades (some w) fetched).1 ≠ [] →
        (get_new_trades (some w) fetched).2 =
          some (max_timestamp (get_new_trades (some w) fetched).1)) ∧
    (get_new_trades (some 0) [trade3, trade1, trade2]).1 =
      [trade1, trade2, trade3] := by
  refine ⟨?_, ?_, ?_, ?_, ?_⟩
  · rw [steady_fst]
    exact List.mergeSort_perm _ _
  · rw [steady_fst]
    have hs := @List.sorted_mergeSort Trade
      (fun a b : Trade => decide (a.timestamp ≤ b.timestamp))
      (fun a b c hab hbc => by
        simp only [decide_eq_true_eq] at *
        exact Nat.le_trans hab hbc)
      (fun a b => by
        simpa using Nat.le_total a.timestamp b.timestamp)
      (fetched.filter (fun t => w < t.timestamp))
    exact hs.imp (fun h => by simpa using h)
  · intro h
    have he : (filter_new_trades (some w) fetched).1.isEmpty = true := by
      rw [← get_new_trades_fst, h]
      rfl
    unfold poll_step at *
    show (if (filter_new_trades (some w) fetched).1.isEmpty = true
        then filter_new_trades (some w) fetched
        else ((filter_new_trades (some w) fetched).1,
          some (max_timestamp (filter_new_trades (some w) fetched).1))).2 = some w
    rw [if_pos he]
    rfl
  · intro h
    have he : (filter_new_trades (some w) fetched).1.isEmpty = false := by
      rw [← get_new_trades_fst]
      exact List.isEmpty_eq_false.mpr h
    show (if (filter_new_trades (some w) fetched).1.isEmpty = true
        then filter_new_trades (some w) fetched
        else ((filter_new_trades (some w) fetched).1,
          some (max_timestamp (filter_new_trades (some w) fetched).1))).2 =
      some (max_timestamp (get_new_trades (some w) fetched).1)
    rw [if_neg (by simp [he]), get_new_trades_fst]
  · rw [steady_fst]
    simp [List.mergeSort, trade1, trade2, trade3]

/-- Concrete instance of claim C6: polling [3,1,2] above watermark 0
emits a non-empty batch whose maximum timestamp becomes the watermark. -/
theorem c6_witness :
    (get_new_trades (some 0) [trade3, trade1, trade2]).1 =
      [trade1, trade2, trade3] ∧
    (get_new_trades (some 0) [trade3, trade1, trade2]).2 =
      some (max_timestamp (get_new_trades (some 0) [trade3, trade1, trade2]).1) := by
  have h := c6_steady_state 0 [trade3, trade1, trade2]
  refine ⟨h.2.2.2.2, ?_⟩
  apply h.2.2.2.1
  rw [h.2.2.2.2]
  decide

/-- Claim C7: recordEntry appends exactly one open position, sized
usd_amount / entry_price when the entry price is positive and 0 when it is
not; in particular usd_amount 10 at entry price 1/4 gives amount 40 and
entry price 0 gives amount 0. -/
theorem c7_entry_sizing (l : Ledger) (t : Trade) (usd ep : ℚ) (now : ℕ) :
    (∃ p, (record_entry l t usd ep now).1.positions = l.positions ++ [p] ∧
      p.closed_at = none ∧ p.token_id = t.token_id ∧
      (0 < ep → p.amount = usd / ep) ∧ (ep ≤ 0 → p.amount = 0)) ∧
    (record_entry emptyLedger sample_buy 10 (1/4) 0).1.positions.map
        Position.amount = [40] ∧
    (record_entry emptyLedger sample_buy 10 0 0).1.positions.map
        Position.amount = [0] := by
  refine ⟨⟨_, record_entry_fst_positions l t usd ep now, rfl, rfl, ?_, ?_⟩, ?_, ?_⟩
  · intro h
    show (if 0 < ep then usd / ep else 0) = usd / ep
    rw [if_pos h]
  · intro h
    show (if 0 < ep then usd / ep else 0) = 0
    rw [if_neg (not_lt.mpr h)]
  · rw [record_entry_fst_positions]
    show [if (0:ℚ) < 1/4 then (10:ℚ) / (1/4) else 0] = [40]
    norm_num
  · rw [record_entry_fst_positions]
    show [if (0:ℚ) < 0 then (10:ℚ) / 0 else 0] = [0]
    norm_num

/-- Concrete instance of claim C7: the two entry sizing examples. -/
theorem c7_witness :
    (0:ℚ) < 1/4 ∧
    (record_entry emptyLedger sample_buy 10 (1/4) 0).1.positions.map
        Position.amount = [40] :=
  ⟨by norm_num, (c7_entry_sizing emptyLedger sample_buy 10 (1/4) 0).2.1⟩

lemma record_exit_fst_of_some {l : Ledger} {t : Trade} {p : Position} (now : ℕ)
    (h : get_position_by_token l t.token_id = some p) :
    (record_exit l t now).1 =
      mark_trade_processed (close_position l p.id now) t.trade_id := by
  rw [record_exit_of_some now h]

lemma record_exit_snd_of_some {l : Ledger} {t : Trade} {p : Position} (now : ℕ)
    (h : get_position_by_token l t.token_id = some p) :
    (record_exit l t now).2 = true := by
  rw [record_exit_of_some now h]

/-- Claim C8: recordExit on a token with no open position returns false
and leaves the whole ledger unchanged, writing no marker; with an open
position it returns true, writes the processed marker, and sets closed_at
on the found position. -/
theorem c8_exit_no_position (l : Ledger) (t : Trade) (now : ℕ) :
    (get_position_by_token l t.token_id = none →
        record_exit l t now = (l, false)) ∧
    (∀ p, get_position_by_token l t.token_id = some p →
        (record_exit l t now).2 = true ∧
        is_trade_processed (record_exit l t now).1 t.trade_id = true ∧
        ∀ q ∈ (record_exit l t now).1.positions,
          q.id = p.id → q.closed_at = some now) := by
  constructor
  · intro h
    exact record_exit_of_none now h
  · intro p hp
    refine ⟨record_exit_snd_of_some now hp, ?_, ?_⟩
    · rw [record_exit_fst_of_some now hp]
      exact mark_trade_processed_self _ _
    · intro q hq hid
      rw [record_exit_fst_of_some now hp, mark_trade_processed_positions] at hq
      have hq2 : q ∈ l.positions.map
          (fun r => if r.id = p.id then { r with closed_at := some now } else r) := hq
      obtain ⟨r, hr, heq⟩ := List.mem_map.mp hq2
      by_cases hrid : r.id = p.id
      · rw [← heq]
        simp [hrid]
      · exfalso
        rw [← heq] at hid
        simp only [if_neg hrid] at hid
        exact hrid hid

/-- Concrete instance of claim C8: exiting T on an empty ledger changes
nothing and returns false; exiting T on a ledger with an open position on
T returns true. -/
theorem c8_witness :
    record_exit emptyLedger sample_sell 0 = (emptyLedger, false) ∧
    (record_exit ledger1 sample_sell 0).2 = true := by
  constructor
  · exact (c8_exit_no_position emptyLedger sample_sell 0).1 rfl
  · exact ((c8_exit_no_position ledger1 sample_sell 0).2 _ rfl).1

/-- Claim C9: any feed record whose side field does not upper-case to
exactly BUY — missing, empty, or unrecognized — parses to a trade with
side SELL, and the side field never causes a record to be rejected. -/
theorem c9_side_default (now : ℕ) (item : RawItem) (tr : Trade)
    (s : Option String) :
    (parse_trade now item = some tr →
        strUpper (item.side.getD "") ≠ "BUY" → tr.side = TradeSide.SELL) ∧
    (parse_trade now { item with side := s }).isSome =
      (parse_trade now item).isSome := by
  obtain ⟨i1, i2, i3, i4, i5, i6, iside, isize, iprice, itime, iout, ititle⟩ := item
  constructor
  · intro hp hne
    cases itime <;> cases isize <;> cases iprice <;>
      first
        | exact Option.noConfusion hp
        | · cases hp
            show parse_side iside = TradeSide.SELL
            unfold parse_side
            rw [if_neg hne]
  · cases itime <;> cases isize <;> cases iprice <;> rfl

/-- A raw record whose side field is the unrecognized string hold. -/
def raw_hold : RawItem :=
  { id := some "x", transactionHash := none, conditionId := some "c",
    marketId := none, assetId := some "TT", tokenId := none,
    side := some "hold", size := NumField.val 2, price := NumField.val (1/2),
    time := TimeField.val 7, outcome := some "YES", title := none }

/-- The trade the parser produces from `raw_hold`. -/
def hold_trade : Trade :=
  { trade_id := "x", market_id := "c", token_id := "TT",
    side := TradeSide.SELL, size := 2, price := 1/2, timestamp := 7,
    outcome := "YES" }

/-- Concrete instance of claim C9: side hold is parsed, not rejected, and
defaults to SELL. -/
theorem c9_witness :
    parse_trade 0 raw_hold = some hold_trade ∧
    hold_trade.side = TradeSide.SELL := by
  constructor
  · rfl
  · exact (c9_side_default 0 raw_hold hold_trade (some "hold")).1 rfl (by decide)

end Polybot
